import Mathlib

/-!
Verification of the `pogo-accounts` HTTP service
(`server/src/pogo-accounts.routes.ts`).

The development shallowly embeds the request-handling layer: the
field-rule table and sanitizer `sanitizePogoAccount`, the id check
`isValidObjectId`, and the five route handlers (list, get-by-id,
create, update, delete) as pure functions from request data and a
store snapshot to an HTTP status and the store operations performed.

JavaScript values appearing as JSON body fields are modelled by
`JsValue` (strings, numbers as rationals, booleans, null); a JSON
object is an association list.  External npm helpers whose sources
are not part of the repository (`validator`, `escape-html`, the
mongodb ObjectId parser) are modelled from the spec, as noted on
each of their definitions.
-/

/-- `10 ^ k` on naturals, by structural recursion. -/
def pow10 : Nat → Nat
  | 0 => 1
  | k + 1 => 10 * pow10 k

/-- A JavaScript number in decimal fixed-point form: the value
`n / 10 ^ k`.  The doubles handled by this code are the small decimal
literals of levels and parsed numeric strings, which this representation
models exactly. -/
structure DecNum where
  n : Int
  k : Nat
deriving DecidableEq, Repr

/-- The rational value of a decimal number (used in statements). -/
def DecNum.toRat (d : DecNum) : Rat :=
  (d.n : Rat) / ((pow10 d.k : Nat) : Rat)

/-- Value comparison `a < b` of decimal numbers, by cross multiplication. -/
def decNumLt (a b : DecNum) : Bool :=
  a.n * (pow10 b.k : Int) < b.n * (pow10 a.k : Int)

/-- A JSON/JavaScript primitive value, as delivered by the body parser. -/
inductive JsValue where
  | vStr (s : String)
  | vNum (d : DecNum)
  | vBool (b : Bool)
  | vNull
deriving DecidableEq, Repr

/-- JavaScript truthiness of `account[field]` (`none` = the key is absent,
i.e. `undefined`). -/
def jsTruthy : Option JsValue → Bool
  | none => false
  | some (.vStr s) => !(s == "")
  | some (.vNum d) => !(d.n == 0)
  | some (.vBool b) => b
  | some .vNull => false

/-- Left-pad a digit string with zeros to the given width. -/
def padZeros (s : String) (k : Nat) : String :=
  String.mk (List.replicate (k - s.length) '0') ++ s

/-- Strip trailing zero digits. -/
def stripTrailingZeros (s : String) : String :=
  String.mk ((s.toList.reverse.dropWhile (fun c => c == '0')).reverse)

/-- Rendering of a JavaScript number by `toString()`: integers without a
decimal point, terminating fractions in decimal notation without
trailing zeros. -/
def decNumToString (d : DecNum) : String :=
  if d.k == 0 then toString d.n
  else
    let sign := if d.n < 0 then "-" else ""
    let a := d.n.natAbs
    let ip := a / pow10 d.k
    let fp := a % pow10 d.k
    let fracStr := stripTrailingZeros (padZeros (toString fp) d.k)
    if fracStr == "" then sign ++ toString ip
    else sign ++ toString ip ++ "." ++ fracStr

/-- JavaScript `String(value)` / `value.toString()` on a primitive value. -/
def jsToString : JsValue → String
  | .vStr s => s
  | .vNum d => decNumToString d
  | .vBool true => "true"
  | .vBool false => "false"
  | .vNull => "null"

/-- `String(value)` where the value may be `undefined`. -/
def jsToStringOpt : Option JsValue → String
  | none => "undefined"
  | some v => jsToString v

/-- `typeof value` as reported in the validator TypeError message. -/
def jsTypeName : JsValue → String
  | .vStr _ => "string"
  | .vNum _ => "number"
  | .vBool _ => "boolean"
  | .vNull => "null"

/-- Does the second list start with the first one? -/
def startsWith : List Char → List Char → Bool
  | [], _ => true
  | _ :: _, [] => false
  | a :: as, b :: bs => a == b && startsWith as bs

/-- Substring occurrence at any position. -/
def strIncludesAux (needle : List Char) : List Char → Bool
  | [] => needle.isEmpty
  | c :: t => startsWith needle (c :: t) || strIncludesAux needle t

/-- JavaScript `hay.includes(needle)` (case-sensitive substring test). -/
def strIncludes (hay needle : String) : Bool :=
  strIncludesAux needle.toList hay.toList

deriving instance DecidableEq for Except

/-- Field access `obj[k]` on a JSON object. -/
def jsGet (obj : List (String × JsValue)) (k : String) : Option JsValue :=
  List.lookup k obj

/-- JavaScript `s.trim()`: strip leading and trailing whitespace. -/
def jsTrim (s : String) : String :=
  String.mk (((s.toList.dropWhile Char.isWhitespace).reverse.dropWhile Char.isWhitespace).reverse)

/-- Accumulator-based splitting on a separator character. -/
def splitOnCharAux (sep : Char) : List Char → List Char → List String
  | [], acc => [String.mk acc.reverse]
  | c :: rest, acc =>
    if c == sep then String.mk acc.reverse :: splitOnCharAux sep rest []
    else splitOnCharAux sep rest (c :: acc)

/-- JavaScript `s.split(sep)` for a one-character separator. -/
def jsSplitOnChar (sep : Char) (s : String) : List String :=
  splitOnCharAux sep s.toList []

/-- JavaScript `parts.join(sep)`. -/
def joinSep (sep : String) : List String → String
  | [] => ""
  | [x] => x
  | x :: xs => x ++ sep ++ joinSep sep xs

/-- Modelled from the spec: the `escape-html` npm package (its source is not
part of this repository).  Per-character HTML-entity replacement of
`&, <, >, double quote, apostrophe`. -/
def escapeHtmlChar (c : Char) : String :=
  if c == Char.ofNat 34 then "&quot;"
  else if c == '&' then "&amp;"
  else if c == Char.ofNat 39 then "&#39;"
  else if c == '<' then "&lt;"
  else if c == '>' then "&gt;"
  else String.singleton c

/-- The `escape-html` escape of a whole string. -/
def escapeHtml (s : String) : String :=
  String.join (s.toList.map escapeHtmlChar)

/-- Modelled from the spec: `validator.escape` (generic escape layer; the
validator package's source is not part of this repository).  Replaces
`&, double quote, apostrophe, <, >, slash, backslash, backtick` by
HTML entities. -/
def validatorEscapeChar (c : Char) : String :=
  if c == '&' then "&amp;"
  else if c == Char.ofNat 34 then "&quot;"
  else if c == Char.ofNat 39 then "&#x27;"
  else if c == '<' then "&lt;"
  else if c == '>' then "&gt;"
  else if c == '/' then "&#x2F;"
  else if c == Char.ofNat 92 then "&#x5C;"
  else if c == Char.ofNat 96 then "&#96;"
  else String.singleton c

/-- The `validator.escape` escape of a whole string. -/
def validatorEscape (s : String) : String :=
  String.join (s.toList.map validatorEscapeChar)

/-- Drop one leading `+`/`-` sign. -/
def stripSign : List Char → List Char
  | [] => []
  | c :: rest => if c == '+' || c == '-' then rest else c :: rest

/-- Body of the numeric pattern `([0-9]*[.])?[0-9]+` anchored at both ends. -/
def numericBody (cs : List Char) : Bool :=
  let ip := cs.takeWhile Char.isDigit
  match cs.dropWhile Char.isDigit with
  | [] => !ip.isEmpty
  | c :: frac => c == '.' && !frac.isEmpty && frac.all Char.isDigit

/-- Modelled from the spec: `validator.isNumeric` with default options
(the validator package's source is not part of this repository); the
string must match `[+-]?([0-9]*[.])?[0-9]+` exactly. -/
def validator_isNumeric (s : String) : Bool :=
  numericBody (stripSign s.toList)

/-- Numeric value of a digit string. -/
def digitsToNat (cs : List Char) : Nat :=
  cs.foldl (fun a c => a * 10 + (c.toNat - 48)) 0

/-- Magnitude part of `parseFloat`: longest prefix `[0-9]*(.[0-9]*)?`
holding at least one digit. -/
def parseFloatMag (cs : List Char) : Option DecNum :=
  let ip := cs.takeWhile Char.isDigit
  match cs.dropWhile Char.isDigit with
  | c :: frac =>
    if c == '.' then
      let fp := frac.takeWhile Char.isDigit
      if ip.isEmpty && fp.isEmpty then none
      else some ⟨(digitsToNat ip * pow10 fp.length + digitsToNat fp : Nat), fp.length⟩
    else if ip.isEmpty then none else some ⟨(digitsToNat ip : Nat), 0⟩
  | [] => if ip.isEmpty then none else some ⟨(digitsToNat ip : Nat), 0⟩

/-- Sign handling of `parseFloat`. -/
def parseFloatSigned : List Char → Option DecNum
  | [] => none
  | c :: rest =>
    if c == '-' then (parseFloatMag rest).map (fun d => ⟨-d.n, d.k⟩)
    else if c == '+' then parseFloatMag rest
    else parseFloatMag (c :: rest)

/-- Modelled from the spec: JavaScript `parseFloat` (a host builtin) on the
decimal shapes admitted by the numeric validator: leading whitespace is
skipped, then an optional sign and the longest `[0-9]*(.[0-9]*)?` prefix
is converted; `none` models `NaN`. -/
def jsParseFloat (s : String) : Option DecNum :=
  parseFloatSigned (s.toList.dropWhile Char.isWhitespace)

/-- Special characters allowed by the validator email local-part atom
besides letters and digits:
`! # $ % & apostrophe * + - / = ? ^ _ backtick lbrace pipe rbrace ~`. -/
def emailSpecialChars : List Char :=
  [33, 35, 36, 37, 38, 39, 42, 43, 45, 47, 61, 63, 94, 95, 96, 123, 124, 125, 126].map Char.ofNat

/-- One atom character of an email local part. -/
def emailAtomChar (c : Char) : Bool :=
  c.isAlpha || c.isDigit || emailSpecialChars.contains c

/-- One label of a fully-qualified domain name: nonempty, letters, digits
and hyphens, no leading or trailing hyphen. -/
def isFQDNLabel (l : List Char) : Bool :=
  !l.isEmpty
    && l.all (fun c => c.isAlpha || c.isDigit || c == '-')
    && !(l.head? == some '-')
    && !(l.getLast? == some '-')

/-- Modelled from the spec: the validator FQDN check used by the email
validator (require_tld on): at least two dot-separated labels, each
well-formed, the last one alphabetic of length at least 2. -/
def validator_isFQDN (domain : String) : Bool :=
  let parts := jsSplitOnChar '.' domain
  match parts.getLast? with
  | none => false
  | some tld =>
    decide (parts.length ≥ 2)
      && decide (tld.length ≥ 2) && tld.toList.all Char.isAlpha
      && parts.all (fun p => isFQDNLabel p.toList)

/-- Split an address at its last `@`: the validator pops the domain off
`str.split(at-sign)` and rejoins the rest as the local part. -/
def splitAtLastAtSign (s : String) : Option (String × String) :=
  let parts := jsSplitOnChar '@' s
  match parts.getLast? with
  | none => none
  | some domain => some (joinSep "@" parts.dropLast, domain)

/-- Modelled from the spec: email-syntax predicate (`validator.isEmail`
with default options; the validator package's source is not part of this
repository), restricted to unquoted ASCII addresses: local part of at
most 64 characters made of nonempty dot-separated atom runs, domain of
at most 254 characters passing the FQDN check. -/
def validator_isEmail (s : String) : Bool :=
  match splitAtLastAtSign s with
  | none => false
  | some (user, domain) =>
    decide (user.length ≤ 64) && decide (domain.length ≤ 254)
      && validator_isFQDN domain
      && !(user == "")
      && (jsSplitOnChar '.' user).all (fun p => !(p == "") && p.toList.all emailAtomChar)

/-- Modelled from the spec: ISO-8601 date acceptance (`validator.isISO8601`;
the validator package's source is not part of this repository), in the
calendar-date form `YYYY-MM-DD`. -/
def validator_isISO8601 (s : String) : Bool :=
  match jsSplitOnChar '-' s with
  | [y, m, d] =>
    decide (y.length = 4) && y.toList.all Char.isDigit
      && decide (m.length = 2) && m.toList.all Char.isDigit
      && decide (d.length = 2) && d.toList.all Char.isDigit
      && decide (1 ≤ digitsToNat m.toList) && decide (digitsToNat m.toList ≤ 12)
      && decide (1 ≤ digitsToNat d.toList) && decide (digitsToNat d.toList ≤ 31)
  | _ => false

/-- The two regular expressions appearing in the rule table. -/
inductive PatKind where
  | usernamePat
  | countryPat
deriving DecidableEq, Repr

/-- Character class of a rule-table pattern. -/
def patChar : PatKind → Char → Bool
  | .usernamePat, c => c.isAlpha || c.isDigit || c == '_' || c == '-'
  | .countryPat, c => c.isAlpha || c.isWhitespace || c == '-'

/-- `pattern.test(String(value))` for the anchored one-class-plus patterns
of the rule table: nonempty and every character in the class. -/
def patTest (p : PatKind) (s : String) : Bool :=
  !(s == "") && s.toList.all (patChar p)

/-- One row of the `allowedFields` rule table. -/
structure FieldRules where
  required : Bool := false
  maxLength : Option Nat := none
  pat : Option PatKind := none
  isEmail : Bool := false
  isNumeric : Bool := false
  isDate : Bool := false
  enumVals : Option (List String) := none
  min : Option Nat := none
  max : Option Nat := none

/-- The `allowedFields` table of `sanitizePogoAccount`, row for row. -/
def allowedFields : List (String × FieldRules) :=
  [ ("username", { required := true, maxLength := some 50, pat := some .usernamePat }),
    ("email", { required := true, maxLength := some 100, isEmail := true }),
    ("team", { required := true, enumVals := some ["instinct", "mystic", "valor"] }),
    ("country", { required := false, maxLength := some 50, pat := some .countryPat }),
    ("birthday", { required := false, isDate := true }),
    ("level", { required := false, isNumeric := true, min := some 1, max := some 50 }) ]

/-- `rules.pattern && !rules.pattern.test(value)`. -/
def patternFails (r : FieldRules) (v : JsValue) : Bool :=
  match r.pat with
  | some p => !(patTest p (jsToString v))
  | none => false

/-- `rules.enum && !rules.enum.includes(value)` (strict equality, so only a
string can be a member of the string enum). -/
def enumFails (r : FieldRules) (v : JsValue) : Bool :=
  match r.enumVals with
  | some es => !(match v with
      | .vStr s => es.contains s
      | _ => false)
  | none => false

/-- `rules.maxLength && value.length > rules.maxLength`: `.length` is only
defined on strings, for every other primitive the comparison with
`undefined` is false. -/
def lengthFails (r : FieldRules) (v : JsValue) : Bool :=
  match r.maxLength, v with
  | some n, .vStr s => decide (s.length > n)
  | _, _ => false

/-- `rules.min && parseFloat(value) < rules.min` (a `NaN` comparison is
false). -/
def minFails (r : FieldRules) (v : JsValue) : Bool :=
  match r.min with
  | some m =>
    match jsParseFloat (jsToString v) with
    | some q => decNumLt q ⟨(m : Int), 0⟩
    | none => false
  | none => false

/-- `rules.max && parseFloat(value) > rules.max` (a `NaN` comparison is
false). -/
def maxFails (r : FieldRules) (v : JsValue) : Bool :=
  match r.max with
  | some m =>
    match jsParseFloat (jsToString v) with
    | some q => decNumLt ⟨(m : Int), 0⟩ q
    | none => false
  | none => false

/-- The validator TypeError raised when a string-only check receives a
non-string (`Expected a string but received a ...`). -/
def typeErrMsg (v : JsValue) : String :=
  "Expected a string but received a " ++ jsTypeName v

/-- Trim then apply the two escape layers, on strings only. -/
def escapeStep (v : JsValue) : JsValue :=
  match v with
  | .vStr s => .vStr (escapeHtml (validatorEscape (jsTrim s)))
  | v => v

/-- The check-and-sanitize body of the `sanitizePogoAccount` loop for one
present field value, checks in source order: email syntax, numeric,
ISO-8601 date, pattern, enum, maxLength, min, max, then the escape step. -/
def processValue (field : String) (r : FieldRules) (v : JsValue) : Except String JsValue :=
  if r.isEmail && !(match v with | .vStr _ => true | _ => false) then
    .error (typeErrMsg v)
  else if r.isEmail && !(validator_isEmail (jsToString v)) then
    .error (field ++ " must be a valid email address")
  else if r.isNumeric && !(validator_isNumeric (jsToString v)) then
    .error (field ++ " must be a number")
  else if r.isDate && !(match v with | .vStr _ => true | _ => false) then
    .error (typeErrMsg v)
  else if r.isDate && !(validator_isISO8601 (jsToString v)) then
    .error (field ++ " must be a valid date")
  else if patternFails r v then
    .error (field ++ " contains invalid characters")
  else if enumFails r v then
    .error (field ++ " must be one of: " ++ joinSep ", " (r.enumVals.getD []))
  else if lengthFails r v then
    .error (field ++ " must be less than " ++ toString (r.maxLength.getD 0) ++ " characters")
  else if minFails r v then
    .error (field ++ " must be at least " ++ toString (r.min.getD 0))
  else if maxFails r v then
    .error (field ++ " must be at most " ++ toString (r.max.getD 0))
  else
    .ok (escapeStep v)

/-- One iteration of the `sanitizePogoAccount` loop: the required-presence
check (truthiness, or a string trimming to empty), the optional-absent
skip, then the per-value checks; `.ok none` means the field is skipped. -/
def processField (field : String) (r : FieldRules) (value? : Option JsValue) :
    Except String (Option JsValue) :=
  if r.required && (!(jsTruthy value?) || jsTrim (jsToStringOpt value?) == "") then
    .error (field ++ " is required")
  else if !(jsTruthy value?) && !r.required then
    .ok none
  else
    match value? with
    | none => .ok none
    | some v =>
      match processValue field r v with
      | .error m => .error m
      | .ok w => .ok (some w)

/-- The field-walk of `sanitizePogoAccount` over a rule table: the first
failing field aborts, passed fields are accumulated in table order. -/
def sanitizeFields (account : List (String × JsValue)) :
    List (String × FieldRules) → Except String (List (String × JsValue))
  | [] => .ok []
  | (f, r) :: rest =>
    match processField f r (jsGet account f) with
    | .error m => .error m
    | .ok none => sanitizeFields account rest
    | .ok (some w) =>
      match sanitizeFields account rest with
      | .error m => .error m
      | .ok out => .ok ((f, w) :: out)

/-- `sanitizePogoAccount` on a JSON object body (the non-object guard of
the source throws before the loop and is outside this embedding). -/
def sanitizePogoAccount (account : List (String × JsValue)) :
    Except String (List (String × JsValue)) :=
  sanitizeFields account allowedFields

/-- Modelled from the spec: `mongodb.ObjectId.isValid` on a string (the
driver's source is not part of this repository): a 12-character string
(12-byte buffer) or a 24-character hex string. -/
def mongoObjectIdIsValid (s : String) : Bool :=
  s.length == 12 || (s.length == 24 && s.toList.all (fun c =>
    c.isDigit || (97 ≤ c.toNat && c.toNat ≤ 102) || (65 ≤ c.toNat && c.toNat ≤ 70)))

/-- `isValidObjectId` of the routes file: driver-valid and exactly 24
characters long. -/
def isValidObjectId (id : String) : Bool :=
  mongoObjectIdIsValid id && id.length == 24

/-- One document of the record store: its identifier and its fields. -/
structure StoreDoc where
  oid : String
  fields : List (String × JsValue)
deriving DecidableEq, Repr

/-- A store operation issued by a handler. -/
inductive StoreOp where
  | find
  | findOne
  | insertOne
  | updateOne
  | findOneAndDelete
deriving DecidableEq, Repr

/-- The match/modify counts reported by the driver for `updateOne`. -/
structure UpdateResult where
  matchedCount : Nat
  modifiedCount : Nat
deriving DecidableEq, Repr

/-- `collections.pogoAccounts.findOne({ email: e })`. -/
def findOneByEmail (e? : Option JsValue) (store : List StoreDoc) : Option StoreDoc :=
  store.find? (fun d => jsGet d.fields "email" == e?)

/-- `collections.pogoAccounts.findOne({ _id: id })`. -/
def findOneById (id : String) (store : List StoreDoc) : Option StoreDoc :=
  store.find? (fun d => d.oid == id)

/-- The router's mapping of a sanitizer error message to a status: 400 when
the message contains `required` or `invalid`, 500 otherwise. -/
def validationErrorStatus (m : String) : Nat :=
  if strIncludes m "required" || strIncludes m "invalid" then 400 else 500

/-- The list handler (`GET /`): `find({}).limit(100).toArray()`, 200 with
the capped array, 500 when the store call fails. -/
def listHandler (storeResult : Except Unit (List StoreDoc)) : Nat × List StoreDoc :=
  match storeResult with
  | .ok docs => (200, docs.take 100)
  | .error _ => (500, [])

/-- The get-by-id handler (`GET /:id`): id check first, then `findOne`;
the status and the store operations issued. -/
def getByIdHandler (id : String) (store : List StoreDoc) : Nat × List StoreOp :=
  if !(isValidObjectId id) then (400, [])
  else
    match findOneById id store with
    | some _ => (200, [.findOne])
    | none => (404, [.findOne])

/-- The create handler (`POST /`): sanitize, duplicate-email lookup,
insert; `newId` is the id the driver mints for the inserted document.
Returns the status and the resulting store contents. -/
def postHandler (newId : String) (store : List StoreDoc)
    (body : List (String × JsValue)) : Nat × List StoreDoc :=
  match sanitizePogoAccount body with
  | .error m => (validationErrorStatus m, store)
  | .ok acc =>
    match findOneByEmail (jsGet acc "email") store with
    | some _ => (409, store)
    | none =>
      if !(newId == "") then (201, store ++ [⟨newId, acc⟩])
      else (500, store ++ [⟨newId, acc⟩])

/-- The update handler (`PUT /:id`): id check, sanitize, then `updateOne`
whose driver-reported counts are `result`; mirrors the source's branch
order (`matchedCount` truthy → 200, `!matchedCount` → 404, else 304).
Returns the status and the store operations issued. -/
def putHandler (id : String) (body : List (String × JsValue))
    (result : UpdateResult) : Nat × List StoreOp :=
  if !(isValidObjectId id) then (400, [])
  else
    match sanitizePogoAccount body with
    | .error m => (validationErrorStatus m, [])
    | .ok _ =>
      ((if !(result.matchedCount == 0) then 200
        else if result.matchedCount == 0 then 404
        else 304), [.updateOne])

/-- The delete handler (`DELETE /:id`): id check, then `findOneAndDelete`;
the status and the store operations issued. -/
def deleteHandler (id : String) (store : List StoreDoc) : Nat × List StoreOp :=
  if !(isValidObjectId id) then (400, [])
  else
    match findOneById id store with
    | some _ => (200, [.findOneAndDelete])
    | none => (404, [.findOneAndDelete])


/-! ## Concrete requests used in the claims -/

/-- A well-formed 24-character hex id. -/
def hexId24 : String := "507f1f77bcf86cd799439011"

/-- A valid create/update body. -/
def trainerBody : List (String × JsValue) :=
  [("username", .vStr "trainer123"), ("email", .vStr "t@example.com"), ("team", .vStr "mystic")]

/-- The sanitizer output for `trainerBody` (these values contain no
escapable characters, so they pass through unchanged). -/
def trainerOut : List (String × JsValue) :=
  [("username", .vStr "trainer123"), ("email", .vStr "t@example.com"), ("team", .vStr "mystic")]

/-- A body failing the `team` enum check (a value failure). -/
def teamRocketBody : List (String × JsValue) :=
  [("username", .vStr "trainer123"), ("email", .vStr "t@example.com"), ("team", .vStr "rocket")]

/-- A body failing the email-syntax check (a format failure). -/
def badEmailBody : List (String × JsValue) :=
  [("username", .vStr "trainer123"), ("email", .vStr "notanemail"), ("team", .vStr "mystic")]

/-- A valid body whose level is the non-integer numeric string `3.5`. -/
def levelBody : List (String × JsValue) :=
  [("username", .vStr "trainer1"), ("email", .vStr "t@example.com"), ("team", .vStr "mystic"),
   ("level", .vStr "3.5")]

/-- The sanitizer output for `levelBody`. -/
def levelOut : List (String × JsValue) :=
  [("username", .vStr "trainer1"), ("email", .vStr "t@example.com"), ("team", .vStr "mystic"),
   ("level", .vStr "3.5")]

/-- A store holding one record with email `t@example.com`. -/
def storeWithTrainer : List StoreDoc :=
  [⟨"aabbccddeeff001122334455", [("email", .vStr "t@example.com")]⟩]

/-- A 100-character syntactically valid email containing one apostrophe:
63 `a`s and an apostrophe, at sign, 31 `a`s, `.com`. -/
def c9Email : String :=
  String.mk (List.replicate 63 'a') ++ String.singleton (Char.ofNat 39) ++ "@"
    ++ String.mk (List.replicate 31 'a') ++ ".com"

/-- The double escape of `c9Email`: the apostrophe becomes
`&amp;#x27;` (10 characters), everything else is unchanged. -/
def c9EscEmail : String :=
  String.mk (List.replicate 63 'a') ++ "&amp;#x27;" ++ "@"
    ++ String.mk (List.replicate 31 'a') ++ ".com"

/-- A create body carrying `c9Email`. -/
def c9Body : List (String × JsValue) :=
  [("username", .vStr "trainer123"), ("email", .vStr c9Email), ("team", .vStr "mystic")]

/-- The email field the sanitizer stores for `c9Body`. -/
def c9SanitizedEmail : Option JsValue :=
  (sanitizePogoAccount c9Body).toOption.bind (fun out => jsGet out "email")

/-! ## Helper lemmas -/

/-- A value that passes all checks is the escape step of the input value. -/
theorem processValue_ok (f : String) (r : FieldRules) (v : JsValue) (w : JsValue)
    (h : processValue f r v = .ok w) : w = escapeStep v := by
  unfold processValue at h
  repeat' split at h
  all_goals simp_all

/-- A field that contributes a value to the output was present in the
input and passed `processValue`. -/
theorem processField_ok_some (f : String) (r : FieldRules) (v? : Option JsValue) (w : JsValue)
    (h : processField f r v? = .ok (some w)) :
    ∃ v, v? = some v ∧ processValue f r v = .ok w := by
  unfold processField at h
  split at h
  · simp_all
  · split at h
    · simp_all
    · cases v? with
      | none => simp at h
      | some v =>
        cases hpv : processValue f r v with
        | error m => simp [hpv] at h
        | ok w2 =>
          simp [hpv] at h
          subst h
          exact ⟨v, rfl, hpv⟩

/-- An absent field never contributes a value to the output. -/
theorem processField_none (f : String) (r : FieldRules) (w : JsValue) :
    processField f r none ≠ .ok (some w) := by
  unfold processField
  cases hr : r.required <;> simp [jsTruthy, hr]

/-- Every output entry of the field walk stems from its own rule-table row
and from a successful `processField` on the input value under its key. -/
theorem sanitizeFields_mem (acct : List (String × JsValue)) :
    ∀ (tbl : List (String × FieldRules)) (out : List (String × JsValue)),
      sanitizeFields acct tbl = .ok out →
      ∀ p ∈ out, ∃ r, (p.1, r) ∈ tbl ∧ processField p.1 r (jsGet acct p.1) = .ok (some p.2)
  | [], out, h, p, hp => by
    simp only [sanitizeFields] at h
    cases h
    simp at hp
  | (f, r) :: rest, out, h, p, hp => by
    simp only [sanitizeFields] at h
    cases hpf : processField f r (jsGet acct f) with
    | error m => rw [hpf] at h; cases h
    | ok w? =>
      rw [hpf] at h
      cases w? with
      | none =>
        obtain ⟨r2, hr2, hpf2⟩ := sanitizeFields_mem acct rest out h p hp
        exact ⟨r2, List.mem_cons_of_mem _ hr2, hpf2⟩
      | some w =>
        cases hrest : sanitizeFields acct rest with
        | error m => rw [hrest] at h; cases h
        | ok out2 =>
          rw [hrest] at h
          cases h
          rcases List.mem_cons.mp hp with hhead | htail
          · subst hhead
            exact ⟨r, List.mem_cons_self _ _, hpf⟩
          · obtain ⟨r2, hr2, hpf2⟩ := sanitizeFields_mem acct rest out2 hrest p htail
            exact ⟨r2, List.mem_cons_of_mem _ hr2, hpf2⟩

/-- When the field walk succeeds, every row of the table was processed
successfully. -/
theorem sanitizeFields_all (acct : List (String × JsValue)) :
    ∀ (tbl : List (String × FieldRules)) (out : List (String × JsValue)),
      sanitizeFields acct tbl = .ok out →
      ∀ fr ∈ tbl, ∃ w?, processField fr.1 fr.2 (jsGet acct fr.1) = .ok w?
  | [], _, _, fr, hfr => by simp at hfr
  | (f, r) :: rest, out, h, fr, hfr => by
    simp only [sanitizeFields] at h
    cases hpf : processField f r (jsGet acct f) with
    | error m => rw [hpf] at h; cases h
    | ok w? =>
      rw [hpf] at h
      rcases List.mem_cons.mp hfr with hhead | htail
      · subst hhead
        exact ⟨w?, hpf⟩
      · cases w? with
        | none => exact sanitizeFields_all acct rest out h fr htail
        | some w =>
          cases hrest : sanitizeFields acct rest with
          | error m => rw [hrest] at h; cases h
          | ok out2 => exact sanitizeFields_all acct rest out2 hrest fr htail

/-- Error propagation of the field walk at a failing head field. -/
theorem sanitizeFields_cons_error (acct : List (String × JsValue)) (f : String)
    (r : FieldRules) (rest : List (String × FieldRules)) (m : String)
    (h : processField f r (jsGet acct f) = .error m) :
    sanitizeFields acct ((f, r) :: rest) = .error m := by
  simp only [sanitizeFields, h]

/-- Error propagation of the field walk across a passing head field. -/
theorem sanitizeFields_cons_skip (acct : List (String × JsValue)) (f : String)
    (r : FieldRules) (rest : List (String × FieldRules)) (w : JsValue) (m : String)
    (h : processField f r (jsGet acct f) = .ok (some w))
    (hrest : sanitizeFields acct rest = .error m) :
    sanitizeFields acct ((f, r) :: rest) = .error m := by
  simp only [sanitizeFields, h, hrest]

/-- A required field whose supplied value is falsy or trims to the empty
string makes `processField` raise the is-required error. -/
theorem processField_required_falsy (f : String) (r : FieldRules) (v : JsValue)
    (hreq : r.required = true)
    (h : jsTruthy (some v) = false ∨ jsTrim (jsToString v) = "") :
    processField f r (some v) = .error (f ++ " is required") := by
  unfold processField
  rcases h with h | h
  · simp [hreq, h]
  · simp [hreq, jsToStringOpt, h]

/-- A digit character is not whitespace. -/
theorem isDigit_not_isWhitespace (c : Char) (h : c.isDigit = true) :
    c.isWhitespace = false := by
  by_contra hw
  rw [Bool.not_eq_false] at hw
  simp [Char.isWhitespace] at hw
  rcases hw with ((h1 | h1) | h1) | h1 <;> subst h1 <;> exact absurd h (by decide)

/-- A digit character is not a sign or dot character. -/
theorem isDigit_ne (c : Char) (x : Char) (h : c.isDigit = true) (hx : x.isDigit = false) :
    (c == x) = false := by
  cases hbeq : c == x with
  | true =>
    have : c = x := by exact beq_iff_eq.mp hbeq
    subst this
    rw [h] at hx
    cases hx
  | false => rfl

/-- A list matching the anchored numeric body is accepted by the
`parseFloat` magnitude parser. -/
theorem numericBody_parseFloatMag (cs : List Char) (h : numericBody cs = true) :
    ∃ d, parseFloatMag cs = some d := by
  unfold numericBody at h
  unfold parseFloatMag
  cases hdw : cs.dropWhile Char.isDigit with
  | nil =>
    rw [hdw] at h
    simp only [hdw]
    rw [Bool.not_eq_true'] at h
    simp [h]
  | cons c frac =>
    rw [hdw] at h
    simp only [hdw]
    simp only [Bool.and_eq_true] at h
    obtain ⟨⟨h1, h2⟩, h3⟩ := h
    have hc : c = '.' := beq_iff_eq.mp h1
    subst hc
    cases frac with
    | nil => simp at h2
    | cons f0 fr =>
      have hf0 : f0.isDigit = true := by
        simp [List.all_cons] at h3
        exact h3.1
      simp [List.takeWhile_cons, hf0]

/-- A string accepted by the numeric validator parses to a number
(`parseFloat` does not yield `NaN` on it). -/
theorem isNumeric_parse (s : String) (h : validator_isNumeric s = true) :
    ∃ d, jsParseFloat s = some d := by
  unfold validator_isNumeric at h
  unfold jsParseFloat
  cases hcs : s.toList with
  | nil => rw [hcs] at h; simp [stripSign, numericBody] at h
  | cons c rest =>
    rw [hcs] at h
    simp only [stripSign] at h
    by_cases hsign : (c == '+' || c == '-') = true
    · rw [if_pos hsign] at h
      have hc : c = '+' ∨ c = '-' := by simpa using hsign
      obtain ⟨d, hd⟩ := numericBody_parseFloatMag rest h
      rcases hc with hc | hc <;> subst hc
      · refine ⟨d, ?_⟩
        simp [List.dropWhile_cons, parseFloatSigned, hd]
      · refine ⟨⟨-d.n, d.k⟩, ?_⟩
        simp [List.dropWhile_cons, parseFloatSigned, hd]
    · rw [if_neg hsign] at h
      have hsign2 : (c == '+') = false ∧ (c == '-') = false := by
        constructor <;> (cases hb : c == '+' <;> cases hb2 : c == '-' <;> simp_all)
      have hcd : c.isDigit = true ∨ c = '.' := by
        by_cases hd : c.isDigit = true
        · exact Or.inl hd
        · unfold numericBody at h
          rw [List.dropWhile_cons] at h
          rw [if_neg (by simp_all)] at h
          simp only [Bool.and_eq_true] at h
          exact Or.inr (beq_iff_eq.mp h.1.1)
      have hws : c.isWhitespace = false := by
        rcases hcd with hd | hd
        · exact isDigit_not_isWhitespace c hd
        · subst hd; decide
      obtain ⟨d, hd⟩ := numericBody_parseFloatMag (c :: rest) h
      refine ⟨d, ?_⟩
      rw [List.dropWhile_cons, if_neg (by simp [hws])]
      simp only [parseFloatSigned]
      rcases hcd with hdg | hdot
      · rw [if_neg (by simp [isDigit_ne c '-' hdg (by decide)])]
        rw [if_neg (by simp [isDigit_ne c '+' hdg (by decide)])]
        exact hd
      · subst hdot
        simp only [if_neg (by decide : ¬(('.' == '-') = true)),
          if_neg (by decide : ¬(('.' == '+') = true))]
        exact hd

/-- `pow10` is positive. -/
theorem pow10_pos (k : Nat) : 0 < pow10 k := by
  induction k with
  | zero => simp [pow10]
  | succ k ih => simp only [pow10]; omega

/-- Reading `decNumLt a b = false` as an order fact on rational values. -/
theorem decNumLt_false_le (a b : DecNum) (h : decNumLt a b = false) :
    b.toRat ≤ a.toRat := by
  unfold decNumLt at h
  rw [decide_eq_false_iff_not] at h
  push_neg at h
  unfold DecNum.toRat
  rw [div_le_div_iff₀ (by exact_mod_cast pow10_pos b.k) (by exact_mod_cast pow10_pos a.k)]
  exact_mod_cast h

/-! ## Claims -/

/-- Claim C1 (code bug, shown at the failing inputs): the spec and the
repository's API documentation map every validation failure to 400,
but the create handler's catch block classifies an error as a
validation error only when its message contains `required` or
`invalid`.  The enum failure message (a value failure) and the
email-syntax failure message (a format failure) contain neither, so
both create requests below are answered with 500, not 400. -/
theorem claim_C1 :
    sanitizePogoAccount teamRocketBody = .error "team must be one of: instinct, mystic, valor"
    ∧ postHandler hexId24 [] teamRocketBody = (500, [])
    ∧ sanitizePogoAccount badEmailBody = .error "email must be a valid email address"
    ∧ postHandler hexId24 [] badEmailBody = (500, []) := by
  refine ⟨by decide, by decide, by decide, by decide⟩

/-- Claim C2 (code bug, shown at the failing input): the spec and the
API documentation declare every body field optional for updates, but
the update handler runs the same sanitizer as create, so a PUT body
carrying only `level` is rejected with 400 `username is required`
instead of being accepted. -/
theorem claim_C2 :
    sanitizePogoAccount [("level", .vNum ⟨45, 0⟩)] = .error "username is required"
    ∧ putHandler hexId24 [("level", .vNum ⟨45, 0⟩)] ⟨1, 1⟩ = (400, []) := by
  refine ⟨by decide, by decide⟩

/-- Claim C3 (code bug, shown at the failing store outcome): the claim
says a matched-but-unmodified update answers 304, but the update
handler's first branch already fires whenever `matchedCount` is
nonzero, so a driver result with `matchedCount = 1, modifiedCount = 0`
is answered 200 and the 304 branch is unreachable for every driver
result. -/
theorem claim_C3 :
    (putHandler hexId24 trainerBody ⟨1, 0⟩).1 = 200
    ∧ ∀ res : UpdateResult,
        (putHandler hexId24 trainerBody res).1 = 200
        ∨ (putHandler hexId24 trainerBody res).1 = 404 := by
  constructor
  · decide
  · intro res
    have hid : isValidObjectId hexId24 = true := by decide
    have hs : sanitizePogoAccount trainerBody = .ok trainerOut := by decide
    simp only [putHandler, hid, Bool.not_true, Bool.false_eq_true, if_false, hs]
    by_cases hm : res.matchedCount = 0 <;> simp [hm]

/-- Claim C4 (confirmed): whenever the sanitized create body's email
matches a record already in the store, the create handler answers 409
and returns the store unchanged (no insert happens). -/
theorem claim_C4 (store : List StoreDoc) (body : List (String × JsValue))
    (acc : List (String × JsValue)) (newId : String)
    (hs : sanitizePogoAccount body = .ok acc)
    (hdup : (findOneByEmail (jsGet acc "email") store).isSome = true) :
    postHandler newId store body = (409, store) := by
  cases hf : findOneByEmail (jsGet acc "email") store with
  | none => rw [hf] at hdup; simp at hdup
  | some d => simp [postHandler, hs, hf]

/-- Witness for claim C4 at a concrete duplicate-email request. -/
theorem claim_C4_witness :
    postHandler "ffffffffffffffffffffffff" storeWithTrainer trainerBody = (409, storeWithTrainer) :=
  claim_C4 storeWithTrainer trainerBody trainerOut "ffffffffffffffffffffffff"
    (by decide) (by decide)

/-- Claim C5 (confirmed): an id that is not 24 characters long (or is
rejected by the store's identifier parser) makes the get-by-id, update
and delete handlers answer 400 while issuing no store operation. -/
theorem claim_C5 (id : String) (store : List StoreDoc) (body : List (String × JsValue))
    (res : UpdateResult)
    (h : id.length ≠ 24 ∨ mongoObjectIdIsValid id = false) :
    getByIdHandler id store = (400, [])
    ∧ putHandler id body res = (400, [])
    ∧ deleteHandler id store = (400, []) := by
  have hv : isValidObjectId id = false := by
    unfold isValidObjectId
    rcases h with h | h
    · have : (id.length == 24) = false := by simpa using h
      simp [this]
    · simp [h]
  refine ⟨?_, ?_, ?_⟩ <;> simp [getByIdHandler, putHandler, deleteHandler, hv]

/-- Witness for claim C5 at a three-character id. -/
theorem claim_C5_witness :
    getByIdHandler "abc" [] = (400, [])
    ∧ putHandler "abc" [] ⟨0, 0⟩ = (400, [])
    ∧ deleteHandler "abc" [] = (400, []) :=
  claim_C5 "abc" [] [] ⟨0, 0⟩ (Or.inl (by decide))

/-- Claim C8 (confirmed): the list handler answers 200 with at most 100
records on every reachable store state, and 500 when the store call
fails. -/
theorem claim_C8 (storeDocs : List StoreDoc) (err : Unit) :
    (listHandler (.ok storeDocs)).1 = 200
    ∧ (listHandler (.ok storeDocs)).2.length ≤ 100
    ∧ listHandler (.error err) = (500, []) := by
  refine ⟨rfl, ?_, rfl⟩
  simp only [listHandler]
  simp [List.length_take]

/-- Claim C7 (confirmed): a successful sanitizer run yields a mapping
whose keys all come from the six recognized fields, each backed by a
present input value under the same key, and every string value of the
output is the HTML-entity escape (`escape-html`) of the generic escape
(`validator.escape`) of the trimmed original value. -/
theorem claim_C7 (acct out : List (String × JsValue))
    (h : sanitizePogoAccount acct = .ok out) :
    (∀ p ∈ out, p.1 ∈ ["username", "email", "team", "country", "birthday", "level"])
    ∧ (∀ p ∈ out, ∃ v, jsGet acct p.1 = some v)
    ∧ (∀ p ∈ out, ∀ s, p.2 = JsValue.vStr s →
        ∃ s0, jsGet acct p.1 = some (JsValue.vStr s0)
          ∧ s = escapeHtml (validatorEscape (jsTrim s0))) := by
  have hmem := sanitizeFields_mem acct allowedFields out h
  refine ⟨?_, ?_, ?_⟩
  · intro p hp
    obtain ⟨r, hr, _⟩ := hmem p hp
    simp only [allowedFields, List.mem_cons, List.not_mem_nil, or_false] at hr
    rcases hr with h1 | h1 | h1 | h1 | h1 | h1 <;>
      (rw [Prod.mk.injEq] at h1; simp [h1.1])
  · intro p hp
    obtain ⟨r, hr, hpf⟩ := hmem p hp
    cases hv : jsGet acct p.1 with
    | none => rw [hv] at hpf; exact absurd hpf (processField_none _ _ _)
    | some v => exact ⟨v, rfl⟩
  · intro p hp s hps
    obtain ⟨r, hr, hpf⟩ := hmem p hp
    cases hv : jsGet acct p.1 with
    | none => rw [hv] at hpf; exact absurd hpf (processField_none _ _ _)
    | some v =>
      rw [hv] at hpf
      obtain ⟨v2, hv2, hpv⟩ := processField_ok_some _ _ _ _ hpf
      injection hv2 with hv2
      subst hv2
      have hesc := processValue_ok _ _ _ _ hpv
      cases v with
      | vStr s0 =>
        refine ⟨s0, rfl, ?_⟩
        rw [hps] at hesc
        simp only [escapeStep] at hesc
        injection hesc
      | vNum d => rw [hps] at hesc; simp [escapeStep] at hesc
      | vBool b => rw [hps] at hesc; simp [escapeStep] at hesc
      | vNull => rw [hps] at hesc; simp [escapeStep] at hesc

/-- Witness for claim C7: a concrete accepted request with an
unrecognized extra key, used to discharge the hypothesis. -/
theorem claim_C7_witness :
    sanitizePogoAccount (("hacker", JsValue.vStr "zzz") :: trainerBody) = .ok trainerOut
    ∧ ("username" : String) ∈ ["username", "email", "team", "country", "birthday", "level"] :=
  ⟨by decide,
    (claim_C7 (("hacker", JsValue.vStr "zzz") :: trainerBody) trainerOut (by decide)).1
      ("username", JsValue.vStr "trainer123") (by decide)⟩

/-- Claim C10 (confirmed): the required-presence check tests truthiness
(or a value whose string form trims to empty), not key presence: a
required field supplied with such a value is rejected with the
is-required error naming that field, for each of the three required
fields. -/
theorem claim_C10 (v : JsValue)
    (h : jsTruthy (some v) = false ∨ jsTrim (jsToString v) = "") :
    sanitizePogoAccount [("username", v)] = .error "username is required"
    ∧ sanitizePogoAccount [("username", .vStr "trainer123"), ("email", v)]
        = .error "email is required"
    ∧ sanitizePogoAccount [("username", .vStr "trainer123"), ("email", .vStr "t@example.com"),
        ("team", v)] = .error "team is required" := by
  refine ⟨?_, ?_, ?_⟩
  · have hg : jsGet [("username", v)] "username" = some v := by
      simp [jsGet, List.lookup]
    have h1 : processField "username"
        { required := true, maxLength := some 50, pat := some .usernamePat }
        (jsGet [("username", v)] "username") = .error "username is required" := by
      rw [hg]; exact processField_required_falsy _ _ _ rfl h
    unfold sanitizePogoAccount allowedFields
    exact sanitizeFields_cons_error _ _ _ _ _ h1
  · have hgu : jsGet [("username", .vStr "trainer123"), ("email", v)] "username"
        = some (.vStr "trainer123") := by simp [jsGet, List.lookup]
    have hu : processField "username"
        { required := true, maxLength := some 50, pat := some .usernamePat }
        (jsGet [("username", .vStr "trainer123"), ("email", v)] "username")
        = .ok (some (.vStr "trainer123")) := by rw [hgu]; decide
    have hge : jsGet [("username", .vStr "trainer123"), ("email", v)] "email" = some v := by
      simp [jsGet, List.lookup]
    have he : processField "email"
        { required := true, maxLength := some 100, isEmail := true }
        (jsGet [("username", .vStr "trainer123"), ("email", v)] "email")
        = .error "email is required" := by
      rw [hge]; exact processField_required_falsy _ _ _ rfl h
    unfold sanitizePogoAccount allowedFields
    exact sanitizeFields_cons_skip _ _ _ _ _ _ hu
      (sanitizeFields_cons_error _ _ _ _ _ he)
  · have hgu : jsGet [("username", .vStr "trainer123"), ("email", .vStr "t@example.com"),
        ("team", v)] "username" = some (.vStr "trainer123") := by simp [jsGet, List.lookup]
    have hu : processField "username"
        { required := true, maxLength := some 50, pat := some .usernamePat }
        (jsGet [("username", .vStr "trainer123"), ("email", .vStr "t@example.com"),
          ("team", v)] "username") = .ok (some (.vStr "trainer123")) := by rw [hgu]; decide
    have hge : jsGet [("username", .vStr "trainer123"), ("email", .vStr "t@example.com"),
        ("team", v)] "email" = some (.vStr "t@example.com") := by simp [jsGet, List.lookup]
    have he : processField "email"
        { required := true, maxLength := some 100, isEmail := true }
        (jsGet [("username", .vStr "trainer123"), ("email", .vStr "t@example.com"),
          ("team", v)] "email") = .ok (some (.vStr "t@example.com")) := by rw [hge]; decide
    have hgt : jsGet [("username", .vStr "trainer123"), ("email", .vStr "t@example.com"),
        ("team", v)] "team" = some v := by simp [jsGet, List.lookup]
    have ht : processField "team"
        { required := true, enumVals := some ["instinct", "mystic", "valor"] }
        (jsGet [("username", .vStr "trainer123"), ("email", .vStr "t@example.com"),
          ("team", v)] "team") = .error "team is required" := by
      rw [hgt]; exact processField_required_falsy _ _ _ rfl h
    unfold sanitizePogoAccount allowedFields
    exact sanitizeFields_cons_skip _ _ _ _ _ _ hu
      (sanitizeFields_cons_skip _ _ _ _ _ _ he
        (sanitizeFields_cons_error _ _ _ _ _ ht))

/-- Witness for claim C10 at all four falsy shapes of the claim:
the number 0, `false`, the empty string and a blank string. -/
theorem claim_C10_witness :
    sanitizePogoAccount [("username", JsValue.vNum ⟨0, 0⟩)] = .error "username is required"
    ∧ sanitizePogoAccount [("username", JsValue.vBool false)] = .error "username is required"
    ∧ sanitizePogoAccount [("username", JsValue.vStr "")] = .error "username is required"
    ∧ sanitizePogoAccount [("username", .vStr "trainer123"), ("email", JsValue.vStr "  ")]
        = .error "email is required" :=
  ⟨(claim_C10 (JsValue.vNum ⟨0, 0⟩) (Or.inl (by decide))).1,
   (claim_C10 (JsValue.vBool false) (Or.inl (by decide))).1,
   (claim_C10 (JsValue.vStr "") (Or.inl (by decide))).1,
   (claim_C10 (JsValue.vStr "  ") (Or.inr (by decide))).2.1⟩

/-- A level value that passes the per-value checks is a numeric string
or number whose parsed value violates neither the min-1 nor the max-50
check. -/
theorem processValue_level_ok (v w : JsValue)
    (h : processValue "level"
      { required := false, isNumeric := true, min := some 1, max := some 50 } v = .ok w) :
    validator_isNumeric (jsToString v) = true
    ∧ ∃ d, jsParseFloat (jsToString v) = some d
        ∧ decNumLt d ⟨1, 0⟩ = false ∧ decNumLt ⟨50, 0⟩ d = false := by
  unfold processValue at h
  rw [if_neg (by simp)] at h
  rw [if_neg (by simp)] at h
  by_cases hnum : validator_isNumeric (jsToString v) = true
  · rw [if_neg (by simp [hnum])] at h
    rw [if_neg (by simp)] at h
    rw [if_neg (by simp)] at h
    rw [if_neg (by simp [patternFails])] at h
    rw [if_neg (by simp [enumFails])] at h
    rw [if_neg (by simp [lengthFails])] at h
    obtain ⟨d, hd⟩ := isNumeric_parse _ hnum
    by_cases hmin : decNumLt d ⟨1, 0⟩ = true
    · rw [if_pos (by simp [minFails, hd, hmin])] at h
      cases h
    · have hmin2 : decNumLt d ⟨1, 0⟩ = false := by
        revert hmin; cases decNumLt d ⟨1, 0⟩ <;> simp
      rw [if_neg (by simp [minFails, hd, hmin2])] at h
      by_cases hmax : decNumLt ⟨50, 0⟩ d = true
      · rw [if_pos (by simp [maxFails, hd, hmax])] at h
        cases h
      · have hmax2 : decNumLt ⟨50, 0⟩ d = false := by
          revert hmax; cases decNumLt ⟨50, 0⟩ d <;> simp
        exact ⟨hnum, d, hd, hmin2, hmax2⟩
  · have hnum2 : validator_isNumeric (jsToString v) = false := by
      revert hnum; cases validator_isNumeric (jsToString v) <;> simp
    rw [if_pos (by simp [hnum2])] at h
    cases h

/-- Claim C6, amended (the original claim fails, see the
counterexample): every truthy level supplied to an accepted request
parses to a numeric value between 1 and 50 inclusive; it need not be
an integer, and a numeric-string level is stored as a string. -/
theorem claim_C6 (acct out : List (String × JsValue)) (v : JsValue)
    (h : sanitizePogoAccount acct = .ok out)
    (hv : jsGet acct "level" = some v)
    (ht : jsTruthy (some v) = true) :
    validator_isNumeric (jsToString v) = true
    ∧ ∃ d, jsParseFloat (jsToString v) = some d ∧ 1 ≤ d.toRat ∧ d.toRat ≤ 50 := by
  have hmem : (("level", { required := false, isNumeric := true, min := some 1, max := some 50 })
      : String × FieldRules) ∈ allowedFields := by
    simp [allowedFields]
  obtain ⟨w?, hpf⟩ := sanitizeFields_all acct allowedFields out h _ hmem
  rw [hv] at hpf
  simp only [processField, ht] at hpf
  rw [if_neg (by simp)] at hpf
  rw [if_neg (by simp)] at hpf
  cases hpv : processValue "level"
      { required := false, isNumeric := true, min := some 1, max := some 50 } v with
  | error m => rw [hpv] at hpf; simp at hpf
  | ok w =>
    obtain ⟨hnum, d, hd, hmin, hmax⟩ := processValue_level_ok v w hpv
    refine ⟨hnum, d, hd, ?_, ?_⟩
    · have := decNumLt_false_le d ⟨1, 0⟩ hmin
      simpa [DecNum.toRat, pow10] using this
    · have := decNumLt_false_le ⟨50, 0⟩ d hmax
      simpa [DecNum.toRat, pow10] using this

/-- Counterexample to claim C6 as stated: the request `levelBody`
passes validation with level `"3.5"`, and the sanitizer stores the
level as the string `"3.5"` — neither an integer nor a number. -/
theorem claim_C6_counterexample :
    sanitizePogoAccount levelBody = .ok levelOut
    ∧ jsGet levelOut "level" = some (JsValue.vStr "3.5") := by
  refine ⟨by decide, by decide⟩

/-- Witness for claim C6 at the request `levelBody`. -/
theorem claim_C6_witness :
    validator_isNumeric (jsToString (JsValue.vStr "3.5")) = true :=
  (claim_C6 levelBody levelOut (JsValue.vStr "3.5")
    (by decide) (by decide) (by decide)).1

set_option maxRecDepth 100000 in
/-- Claim C9 (confirmed): the maxLength check runs on the raw value, so
the 100-character email `c9Email` (one apostrophe) passes validation,
while the double-escaped value stored in the output has 109 characters
and exceeds the field's declared 100-character bound. -/
theorem claim_C9 :
    c9Email.length = 100
    ∧ c9SanitizedEmail = some (JsValue.vStr c9EscEmail)
    ∧ c9EscEmail.length = 109
    ∧ 100 < c9EscEmail.length := by
  refine ⟨by decide, by decide, by decide, by decide⟩
